import Mathlib

/-!
Verification development for the Xilinx QEMU sources in this repository:
the Xilinx AES-GCM engine (declared in include/hw/misc/xlnx-aes.h) and the
ZynqMP Real Time Clock model.

The AES engine implementation (xlnx-aes.c and qemu/gcm.h) is not present in
the source tree; only its public interface, state record and phase enum are.
Following the design document, those parts are modelled from the spec: every
such definition carries a doc comment naming what is missing.  The RTC model
is embedded directly from its C source.

All machine integers are represented as Nat with explicit reduction
modulo 2^8 / 2^32 / 2^64 / 2^128 where the C code uses fixed-width types.
Byte order for multi-byte quantities is big-endian, matching the spec.
-/

namespace XlnxSpec

/-- Pack a big-endian list of bytes into a natural number; every byte is
reduced modulo 256 as it is consumed. -/
def bytesToNatBE (bs : List Nat) : Nat :=
  bs.foldl (fun a b => a * 256 + b % 256) 0

/-- Unpack a natural number into a big-endian list of `len` bytes. -/
def natToBytesBE (len n : Nat) : List Nat :=
  (List.range len).map (fun i => n / 2 ^ (8 * (len - 1 - i)) % 256)

/-- Pointwise XOR of two byte lists (truncates to the shorter one). -/
def xorBytes (a b : List Nat) : List Nat :=
  List.zipWith (fun x y => x ^^^ y) a b

/-- Big-endian byte representation of a list of 32-bit words. -/
def wordsToBytesBE (ws : List Nat) : List Nat :=
  ws.flatMap (natToBytesBE 4)

/-! ### Block cipher core (AES)

Modelled from the spec: the block-cipher implementation referenced by
xlnx-aes.h is not under src/.  Spec section 4.4: standard fixed-block
cipher with 10/12/14 rounds for 128/192/256-bit keys, exposing key-schedule
expansion and single-block encryption. -/

/-- Multiplication by x in GF(2^8) with the AES reduction polynomial 0x11b. -/
def xtime (b : Nat) : Nat :=
  if b < 128 then b * 2 else b * 2 ^^^ 0x11b

/-- Fuelled GF(2^8) product accumulator (Russian-peasant multiplication). -/
def gmulB : Nat → Nat → Nat → Nat
  | 0, _, _ => 0
  | n + 1, a, b => (if a % 2 = 1 then b else 0) ^^^ gmulB n (a / 2) (xtime b)

/-- GF(2^8) multiplication of two bytes. -/
def gfmul (a b : Nat) : Nat := gmulB 8 a b

/-- GF(2^8) inverse via x^254 (square-and-multiply); maps 0 to 0. -/
def gfinv (x : Nat) : Nat :=
  let x2 := gfmul x x
  let x4 := gfmul x2 x2
  let x8 := gfmul x4 x4
  let x16 := gfmul x8 x8
  let x32 := gfmul x16 x16
  let x64 := gfmul x32 x32
  let x128 := gfmul x64 x64
  gfmul x128 (gfmul x64 (gfmul x32 (gfmul x16 (gfmul x8 (gfmul x4 x2)))))

/-- Rotate an 8-bit value left by n bits. -/
def rotl8 (x n : Nat) : Nat :=
  (x * 2 ^ n + x / 2 ^ (8 - n)) % 256

/-- The AES S-box: GF(2^8) inversion followed by the affine transform. -/
def sbox (x : Nat) : Nat :=
  let b := gfinv (x % 256)
  b ^^^ rotl8 b 1 ^^^ rotl8 b 2 ^^^ rotl8 b 3 ^^^ rotl8 b 4 ^^^ 0x63

/-- Apply the S-box to each byte of a 32-bit word. -/
def subWord (w : Nat) : Nat :=
  bytesToNatBE ((natToBytesBE 4 w).map sbox)

/-- Rotate a 32-bit word left by one byte. -/
def rotWord (w : Nat) : Nat :=
  (w % 2 ^ 32) * 2 ^ 8 % 2 ^ 32 + (w % 2 ^ 32) / 2 ^ 24

/-- Round-constant byte: rcByte n is x^n in GF(2^8). -/
def rcByte : Nat → Nat
  | 0 => 1
  | n + 1 => xtime (rcByte n)

/-- AES key expansion: from nk key words produce the 4*(nr+1) round-key
words (nk = 4/6/8, nr = 10/12/14). -/
def keyExpand (key : List Nat) (nk nr : Nat) : List Nat :=
  (List.range (4 * (nr + 1))).foldl
    (fun ws i =>
      if i < nk then ws ++ [key.getD i 0 % 2 ^ 32]
      else
        let prev := ws.getD (i - 1) 0
        let temp :=
          if i % nk = 0 then subWord (rotWord prev) ^^^ rcByte (i / nk - 1) * 2 ^ 24
          else if 6 < nk ∧ i % nk = 4 then subWord prev
          else prev
        ws ++ [ws.getD (i - nk) 0 ^^^ temp])
    []

/-- One round key (16 bytes) taken from the expanded schedule. -/
def roundKeyBytes (sched : List Nat) (r : Nat) : List Nat :=
  wordsToBytesBE ((sched.drop (4 * r)).take 4)

/-- SubBytes layer on the 16-byte state. -/
def subBytesL (st : List Nat) : List Nat := st.map sbox

/-- ShiftRows on the 16-byte state in AES column-major byte order. -/
def shiftRows (st : List Nat) : List Nat :=
  (List.range 16).map (fun i => st.getD (i % 4 + 4 * ((i / 4 + i % 4) % 4)) 0)

/-- MixColumns on one 4-byte column. -/
def mixCol (c : List Nat) : List Nat :=
  match c with
  | [a0, a1, a2, a3] =>
      [gfmul 2 a0 ^^^ gfmul 3 a1 ^^^ a2 ^^^ a3,
       a0 ^^^ gfmul 2 a1 ^^^ gfmul 3 a2 ^^^ a3,
       a0 ^^^ a1 ^^^ gfmul 2 a2 ^^^ gfmul 3 a3,
       gfmul 3 a0 ^^^ a1 ^^^ a2 ^^^ gfmul 2 a3]
  | other => other

/-- MixColumns on the 16-byte state. -/
def mixColumns (st : List Nat) : List Nat :=
  mixCol (st.take 4) ++ mixCol ((st.drop 4).take 4) ++
  mixCol ((st.drop 8).take 4) ++ mixCol (st.drop 12)

/-- AES block encryption: nr rounds over a 16-byte state. -/
def aesEncrypt (sched : List Nat) (nr : Nat) (input : List Nat) : List Nat :=
  let st0 := xorBytes input (roundKeyBytes sched 0)
  let stN := (List.range (nr - 1)).foldl
    (fun st i => xorBytes (mixColumns (shiftRows (subBytesL st))) (roundKeyBytes sched (i + 1)))
    st0
  xorBytes (shiftRows (subBytesL stN)) (roundKeyBytes sched nr)

/-- AES block encryption on a 128-bit value. -/
def encBlockNat (sched : List Nat) (nr : Nat) (n : Nat) : Nat :=
  bytesToNatBE (aesEncrypt sched nr (natToBytesBE 16 n))

/-! ### GHASH and the GCM context

Modelled from the spec: the GCM implementation (qemu/gcm.h, included by
xlnx-aes.h) is not under src/.  Spec section 4.2: counter-mode keystream,
GHASH over AAD and ciphertext, big-endian byte order, counter arithmetic
modulo 2^32, carry-less multiplication over GF(2^128) with the standard
reduction polynomial. -/

/-- The GF(2^128) reduction constant R = 0xe1 shifted into the top byte. -/
def gf128R : Nat := 0xe1 * 2 ^ 120

/-- Fuelled GF(2^128) carry-less multiplication: x scanned MSB-first,
v repeatedly halved with conditional reduction by R. -/
def gf128MulF : Nat → Nat → Nat → Nat → Nat
  | 0, _, _, z => z
  | n + 1, x, v, z =>
      let z1 := if x / 2 ^ 127 % 2 = 1 then z ^^^ v else z
      let v1 := if v % 2 = 1 then v / 2 ^^^ gf128R else v / 2
      gf128MulF n (x * 2 % 2 ^ 128) v1 z1

/-- GF(2^128) multiplication of two 128-bit values. -/
def gf128Mul (x y : Nat) : Nat := gf128MulF 128 (x % 2 ^ 128) y 0

/-- One GHASH step: absorb one 128-bit block into the accumulator. -/
def ghashUpd (h acc blk : Nat) : Nat := gf128Mul (acc ^^^ blk) h

/-- Zero-pad a partial block (< 16 bytes) on the right to a full
128-bit big-endian block value. -/
def padBlock (buf : List Nat) : Nat :=
  bytesToNatBE buf * 2 ^ (8 * (16 - buf.length))

/-- Modelled from the spec: the gcm_context working state owned by the GCM
implementation missing from src/ (round keys, counter, hash subkey, hash
accumulator, absorbed byte counters, and the partial-block buffer used by
byte-stream absorption). -/
structure gcm_context where
  sched : List Nat
  nr : Nat
  h : Nat
  j0 : Nat
  ctr : Nat
  acc : Nat
  aadLen : Nat
  ctLen : Nat
  buf : List Nat
  deriving DecidableEq

/-- The all-zero GCM context installed before any message begins. -/
def gcmZero : gcm_context :=
  { sched := [], nr := 0, h := 0, j0 := 0, ctr := 0, acc := 0,
    aadLen := 0, ctLen := 0, buf := [] }

/-- Increment the low 32-bit counter field of a counter block (mod 2^32). -/
def inc32 (c : Nat) : Nat := c / 2 ^ 32 * 2 ^ 32 + (c + 1) % 2 ^ 32

/-- Modelled from the spec: gcm begin (spec 4.2).  Derives the hash subkey
H = Encrypt(0^128), builds the initial counter block from the 96-bit nonce
with the 32-bit counter field initialized to 1, and resets the accumulator,
counters and buffer. -/
def gcm_begin (sched : List Nat) (nr : Nat) (nonce : Nat) : gcm_context :=
  { sched := sched, nr := nr,
    h := encBlockNat sched nr 0,
    j0 := nonce % 2 ^ 96 * 2 ^ 32 + 1,
    ctr := nonce % 2 ^ 96 * 2 ^ 32 + 1,
    acc := 0, aadLen := 0, ctLen := 0, buf := [] }

/-- Modelled from the spec: absorb one AAD byte (spec 4.2 absorb_aad,
byte-stream form).  Bytes accumulate in the partial-block buffer; every
full 16-byte block is folded into the hash accumulator. -/
def gcmAadByte (c : gcm_context) (b : Nat) : gcm_context :=
  let buf1 := c.buf ++ [b % 256]
  if buf1.length = 16 then
    { c with acc := ghashUpd c.h c.acc (bytesToNatBE buf1),
             aadLen := c.aadLen + 1, buf := [] }
  else
    { c with aadLen := c.aadLen + 1, buf := buf1 }

/-- Modelled from the spec: flush a trailing partial AAD block, zero-padded,
into the hash accumulator when the AAD phase ends. -/
def gcmAadFlush (c : gcm_context) : gcm_context :=
  if c.buf = [] then c
  else { c with acc := ghashUpd c.h c.acc (padBlock c.buf), buf := [] }

/-- The 16 keystream bytes for the next payload block of a context:
encryption of the incremented counter block. -/
def ksBytes (c : gcm_context) : List Nat :=
  natToBytesBE 16 (encBlockNat c.sched c.nr (inc32 c.ctr))

/-- Modelled from the spec: absorb one payload byte (spec 4.2
process_payload, byte-stream form).  On each completed 16-byte block the
counter is incremented, the block is XORed with the keystream, the
ciphertext (output when encrypting, input when decrypting) is fed to the
hash accumulator, and the transformed block is emitted. -/
def gcmPayloadByte (enc : Bool) (c : gcm_context) (b : Nat) :
    gcm_context × List Nat :=
  let buf1 := c.buf ++ [b % 256]
  if buf1.length = 16 then
    let out := xorBytes buf1 (ksBytes c)
    let ct := if enc then out else buf1
    ({ c with ctr := inc32 c.ctr,
              acc := ghashUpd c.h c.acc (bytesToNatBE ct),
              ctLen := c.ctLen + 1, buf := [] }, out)
  else
    ({ c with ctLen := c.ctLen + 1, buf := buf1 }, [])

/-- Modelled from the spec: process the trailing partial payload block when
the payload phase ends.  The partial block is XORed with the leading
keystream bytes; the partial ciphertext is absorbed zero-padded. -/
def gcmPayloadFlush (enc : Bool) (c : gcm_context) : gcm_context × List Nat :=
  if c.buf = [] then (c, [])
  else
    let out := xorBytes c.buf (ksBytes c)
    let ct := if enc then out else c.buf
    ({ c with ctr := inc32 c.ctr,
              acc := ghashUpd c.h c.acc (padBlock ct), buf := [] }, out)

/-- Recursive form of the byte-stream payload transform: the contexts are
threaded left to right and the emitted blocks concatenate. -/
def gcmPayloadRun (enc : Bool) : gcm_context → List Nat → gcm_context × List Nat
  | c, [] => (c, [])
  | c, b :: bs =>
      let q := gcmPayloadByte enc c b
      let r := gcmPayloadRun enc q.1 bs
      (r.1, q.2 ++ r.2)

/-- Byte-stream payload transform of a whole payload: the run followed by
the final partial-block flush. -/
def gcmPayloadAll (enc : Bool) (c : gcm_context) (data : List Nat) :
    gcm_context × List Nat :=
  let r := gcmPayloadRun enc c data
  let q := gcmPayloadFlush enc r.1
  (q.1, r.2 ++ q.2)

/-- The effect of absorbing one full 16-byte payload block from an empty
buffer: counter increment, keystream XOR, ciphertext into the hash. -/
def gcmBlock (enc : Bool) (c : gcm_context) (block : List Nat) :
    gcm_context × List Nat :=
  let bb := block.map (· % 256)
  let out := xorBytes bb (ksBytes c)
  let ct := if enc then out else bb
  ({ c with ctr := inc32 c.ctr, acc := ghashUpd c.h c.acc (bytesToNatBE ct),
            ctLen := c.ctLen + 16, buf := [] }, out)

/-- Absorb a whole AAD byte string and flush the trailing partial block. -/
def gcmAadAbsorb (c : gcm_context) (aad : List Nat) : gcm_context :=
  gcmAadFlush (aad.foldl gcmAadByte c)

/-- Modelled from the spec: gcm finish (spec 4.2), resolved by the GCM
standard the spec invokes: append the 128-bit length block (64-bit AAD
bit-length, 64-bit ciphertext bit-length, big-endian) to the hash
accumulator and XOR the result with the encryption of the initial counter
block built by begin. -/
def gcm_finish (c : gcm_context) : Nat :=
  let lenBlk := c.aadLen * 8 % 2 ^ 64 * 2 ^ 64 + c.ctLen * 8 % 2 ^ 64
  ghashUpd c.h c.acc lenBlk ^^^ encBlockNat c.sched c.nr c.j0

/-- The final-tag formula exactly as claim C2 words it: the hash value
after the length block, XORed with the encryption of the initial counter
block with its 32-bit counter field set to 0 (rather than the initial
counter block built by begin, whose counter field is 1).  Kept for
comparison with gcm_finish. -/
def gcm_finish_counter0 (c : gcm_context) : Nat :=
  let lenBlk := c.aadLen * 8 % 2 ^ 64 * 2 ^ 64 + c.ctLen * 8 % 2 ^ 64
  ghashUpd c.h c.acc lenBlk ^^^ encBlockNat c.sched c.nr (c.j0 / 2 ^ 32 * 2 ^ 32)

/-- Split a 128-bit tag into its four big-endian 32-bit register words. -/
def tagWords (t : Nat) : List Nat :=
  [t / 2 ^ 96 % 2 ^ 32, t / 2 ^ 64 % 2 ^ 32, t / 2 ^ 32 % 2 ^ 32, t % 2 ^ 32]

/-! ### Stream processor / protocol state machine

The XlnxAESState phase enum and the XlnxAES record are embedded from
include/hw/misc/xlnx-aes.h.  The operations on them (xlnx_aes_write_key,
xlnx_aes_load_key, xlnx_aes_key_zero, xlnx_aes_start_message,
xlnx_aes_push_data) are declared there but implemented in xlnx-aes.c,
which is not under src/; their bodies are modelled from the spec
(sections 4.1, 4.3, 4.5). -/

/-- The protocol phase enum, from include/hw/misc/xlnx-aes.h lines 58-70. -/
inductive XlnxAESState where
  | IDLE | IV0 | IV1 | IV2 | IV3 | AAD | PAYLOAD | TAG0 | TAG1 | TAG2 | TAG3
  deriving DecidableEq

/-- The integer value of each phase, following the C enum order. -/
def phaseIdx : XlnxAESState → Nat
  | .IDLE => 0 | .IV0 => 1 | .IV1 => 2 | .IV2 => 3 | .IV3 => 4 | .AAD => 5
  | .PAYLOAD => 6 | .TAG0 => 7 | .TAG1 => 8 | .TAG2 => 9 | .TAG3 => 10

/-- The engine state record, from include/hw/misc/xlnx-aes.h lines 35-56
(device-framework fields dropped; key_loaded records whether load_key has
succeeded since the last zeroing, sched holds the Key Store round-key
schedule, wbuf is the partial 32-bit word assembly buffer of the stream
processor, done is the done output signal). -/
structure XlnxAES where
  gcm_ctx : gcm_context
  state : XlnxAESState
  encrypt : Bool
  tag_ok : Bool
  key_zeroed : Bool
  inp_ready : Bool
  iv : List Nat
  tag : List Nat
  key : List Nat
  keylen : Nat
  key_loaded : Bool
  sched : List Nat
  wbuf : List Nat
  done : Bool
  deriving DecidableEq

/-- The error kinds of spec section 7. -/
inductive AESError where
  | InvalidKeyLength | KeyNotLoaded | AuthenticationFailed | ProtocolViolation
  deriving DecidableEq

/-- The engine after reset: every field of the auto-reset region zero. -/
def xlnx_aes_reset : XlnxAES :=
  { gcm_ctx := gcmZero, state := .IDLE, encrypt := false, tag_ok := false,
    key_zeroed := false, inp_ready := false, iv := [0, 0, 0, 0],
    tag := [0, 0, 0, 0], key := List.replicate 8 0, keylen := 0,
    key_loaded := false, sched := [], wbuf := [], done := false }

/-- Modelled from the spec: xlnx_aes_write_key (spec 4.1 write_key).
Overwrites key register pos and clears key_zeroed. -/
def xlnx_aes_write_key (s : XlnxAES) (pos : Nat) (val : Nat) : XlnxAES :=
  { s with key := s.key.set pos (val % 2 ^ 32), key_zeroed := false }

/-- Number of AES rounds for a key of the given bit length. -/
def nrOf (bits : Nat) : Nat := bits / 32 + 6

/-- Modelled from the spec: xlnx_aes_load_key (spec 4.1 load_key).  For
bits in {128, 192, 256} it records the active length, marks the key
loaded and expands the leading bits/32 key words into the round-key
schedule; for any other value it signals InvalidKeyLength and leaves the
key store unloaded. -/
def xlnx_aes_load_key (s : XlnxAES) (bits : Nat) : XlnxAES × Option AESError :=
  if bits = 128 ∨ bits = 192 ∨ bits = 256 then
    ({ s with keylen := bits, key_loaded := true,
              sched := keyExpand (s.key.take (bits / 32)) (bits / 32) (nrOf bits) },
     none)
  else
    ({ s with key_loaded := false }, some .InvalidKeyLength)

/-- Modelled from the spec: xlnx_aes_key_zero (spec 4.1 zero_key).
Overwrites all 8 key registers and the round-key schedule with zero, sets
key_zeroed and clears the loaded flag. -/
def xlnx_aes_key_zero (s : XlnxAES) : XlnxAES :=
  { s with key := List.replicate 8 0, sched := List.replicate 60 0,
           key_zeroed := true, key_loaded := false }

/-- Modelled from the spec: xlnx_aes_start_message (spec 4.3).  Fixes the
mode, resets the phase cursor to IV0, and resets the GCM context and the
IV/tag registers and assembly buffer. -/
def xlnx_aes_start_message (s : XlnxAES) (enc : Bool) : XlnxAES :=
  { s with state := .IV0, encrypt := enc, tag_ok := false, done := false,
           inp_ready := true, gcm_ctx := gcmZero, iv := [0, 0, 0, 0],
           tag := [0, 0, 0, 0], wbuf := [] }

/-- The 96-bit GCM nonce assembled MSB-first from the first three stored
IV words (spec section 3). -/
def nonceOfIv (iv : List Nat) : Nat :=
  iv.getD 0 0 % 2 ^ 32 * 2 ^ 64 + iv.getD 1 0 % 2 ^ 32 * 2 ^ 32 + iv.getD 2 0 % 2 ^ 32

/-- One payload byte through the machine (phase PAYLOAD). -/
def aesPayloadByte (s : XlnxAES) (b : Nat) : XlnxAES × List Nat :=
  let r := gcmPayloadByte s.encrypt s.gcm_ctx b
  ({ s with gcm_ctx := r.1 }, r.2)

/-- Modelled from the spec: one byte through the stream processor
(spec 4.3 state machine, spec 4.5 chunking policy).  IV and TAG phases
assemble 32-bit words and advance exactly one phase per completed word;
completing IV3 invokes gcm begin on the assembled nonce; the first
non-AAD byte after the AAD phase flushes the AAD and rolls over into
PAYLOAD; completing TAG3 (decrypt) compares the expected tag with the
computed one, latches tag_ok, asserts done and returns to IDLE.  Bytes
arriving in IDLE are ignored (push_data rejects them up front). -/
def aesStepByte (s : XlnxAES) (isAad : Bool) (b : Nat) : XlnxAES × List Nat :=
  match s.state with
  | .IDLE => (s, [])
  | .IV0 =>
      let w1 := s.wbuf ++ [b % 256]
      if w1.length = 4 then
        ({ s with iv := s.iv.set 0 (bytesToNatBE w1), wbuf := [], state := .IV1 }, [])
      else ({ s with wbuf := w1 }, [])
  | .IV1 =>
      let w1 := s.wbuf ++ [b % 256]
      if w1.length = 4 then
        ({ s with iv := s.iv.set 1 (bytesToNatBE w1), wbuf := [], state := .IV2 }, [])
      else ({ s with wbuf := w1 }, [])
  | .IV2 =>
      let w1 := s.wbuf ++ [b % 256]
      if w1.length = 4 then
        ({ s with iv := s.iv.set 2 (bytesToNatBE w1), wbuf := [], state := .IV3 }, [])
      else ({ s with wbuf := w1 }, [])
  | .IV3 =>
      let w1 := s.wbuf ++ [b % 256]
      if w1.length = 4 then
        let iv1 := s.iv.set 3 (bytesToNatBE w1)
        ({ s with iv := iv1, wbuf := [], state := .AAD,
                  gcm_ctx := gcm_begin s.sched (nrOf s.keylen) (nonceOfIv iv1) }, [])
      else ({ s with wbuf := w1 }, [])
  | .AAD =>
      if isAad then ({ s with gcm_ctx := gcmAadByte s.gcm_ctx b }, [])
      else
        aesPayloadByte { s with gcm_ctx := gcmAadFlush s.gcm_ctx, state := .PAYLOAD } b
  | .PAYLOAD => aesPayloadByte s b
  | .TAG0 =>
      let w1 := s.wbuf ++ [b % 256]
      if w1.length = 4 then
        ({ s with tag := s.tag.set 0 (bytesToNatBE w1), wbuf := [], state := .TAG1 }, [])
      else ({ s with wbuf := w1 }, [])
  | .TAG1 =>
      let w1 := s.wbuf ++ [b % 256]
      if w1.length = 4 then
        ({ s with tag := s.tag.set 1 (bytesToNatBE w1), wbuf := [], state := .TAG2 }, [])
      else ({ s with wbuf := w1 }, [])
  | .TAG2 =>
      let w1 := s.wbuf ++ [b % 256]
      if w1.length = 4 then
        ({ s with tag := s.tag.set 2 (bytesToNatBE w1), wbuf := [], state := .TAG3 }, [])
      else ({ s with wbuf := w1 }, [])
  | .TAG3 =>
      let w1 := s.wbuf ++ [b % 256]
      if w1.length = 4 then
        let exp := s.tag.set 3 (bytesToNatBE w1)
        ({ s with tag := exp, wbuf := [], state := .IDLE, done := true,
                  inp_ready := false,
                  tag_ok := decide (tagWords (gcm_finish s.gcm_ctx) = exp) }, [])
      else ({ s with wbuf := w1 }, [])

/-- Modelled from the spec: the encrypt-direction tag phases (spec 4.3).
Each TAG phase emits one word of the computed tag into the tag register
and advances; TAG3 completion asserts done and returns to IDLE. -/
def aesEmitTagStep (s : XlnxAES) : XlnxAES :=
  match s.state with
  | .TAG0 => { s with tag := s.tag.set 0 ((tagWords (gcm_finish s.gcm_ctx)).getD 0 0), state := .TAG1 }
  | .TAG1 => { s with tag := s.tag.set 1 ((tagWords (gcm_finish s.gcm_ctx)).getD 1 0), state := .TAG2 }
  | .TAG2 => { s with tag := s.tag.set 2 ((tagWords (gcm_finish s.gcm_ctx)).getD 2 0), state := .TAG3 }
  | .TAG3 => { s with tag := s.tag.set 3 ((tagWords (gcm_finish s.gcm_ctx)).getD 3 0),
                      state := .IDLE, done := true, inp_ready := false }
  | _ => s

/-- The four encrypt-direction tag phases run back to back. -/
def aesEmit4 (s : XlnxAES) : XlnxAES :=
  aesEmitTagStep (aesEmitTagStep (aesEmitTagStep (aesEmitTagStep s)))

/-- Modelled from the spec: end of the payload phase on the final call.
The trailing partial block is flushed; on encrypt the four tag phases run
back to back emitting the computed tag and asserting done; on decrypt the
machine waits in TAG0 for the expected tag words. -/
def aesEndPayload (s : XlnxAES) : XlnxAES × List Nat :=
  let r := gcmPayloadFlush s.encrypt s.gcm_ctx
  let s1 := { s with gcm_ctx := r.1, state := XlnxAESState.TAG0 }
  if s.encrypt then (aesEmit4 s1, r.2) else (s1, r.2)

/-- Modelled from the spec: the epilogue of a push_data call whose
last_word marker is set.  In AAD the machine first rolls over into
PAYLOAD (flushing the AAD) with an empty payload; in PAYLOAD the payload
ends; in any other phase the marker has no effect. -/
def aesLastWord (s : XlnxAES) : XlnxAES × List Nat :=
  match s.state with
  | .AAD => aesEndPayload { s with gcm_ctx := gcmAadFlush s.gcm_ctx, state := .PAYLOAD }
  | .PAYLOAD => aesEndPayload s
  | _ => (s, [])

/-- Fold a byte list through the stream processor, concatenating outputs. -/
def aesRunBytes (s : XlnxAES) (isAad : Bool) (data : List Nat) :
    XlnxAES × List Nat :=
  data.foldl (fun p b =>
    let q := aesStepByte p.1 isAad b
    (q.1, p.2 ++ q.2)) (s, [])

/-- Modelled from the spec: xlnx_aes_push_data (spec 4.3, 4.5, 7).  A push
with no active message fails with ProtocolViolation; a push before a
successful key load fails with KeyNotLoaded; both are fatal to the call
and mutate no state.  Otherwise the bytes are consumed in order through
the current phases (isAad declares whether they are AAD bytes), and a set
last_word marker runs the end-of-payload epilogue.  Returns the new
state, the output bytes and the status. -/
def xlnx_aes_push_data (s : XlnxAES) (data : List Nat) (isAad : Bool)
    (lastWord : Bool) : XlnxAES × List Nat × Option AESError :=
  if s.state = .IDLE then (s, [], some .ProtocolViolation)
  else if ¬ s.key_loaded then (s, [], some .KeyNotLoaded)
  else
    let r := aesRunBytes s isAad data
    if lastWord then
      let e := aesLastWord r.1
      (e.1, r.2 ++ e.2, none)
    else (r.1, r.2, none)

/-- Sequence of push_data calls with a common AAD flag and no last_word
marker; outputs concatenate, the status of the last call is kept. -/
def xlnx_aes_push_many (s : XlnxAES) (parts : List (List Nat))
    (isAad : Bool) : XlnxAES × List Nat × Option AESError :=
  parts.foldl (fun p part =>
    let q := xlnx_aes_push_data p.1 part isAad false
    (q.1, p.2.1 ++ q.2.1, q.2.2)) (s, [], none)

/-- Full encrypt-direction protocol run: write the 8 key words, load the
key, start an encrypt message, push the 16 IV bytes, push the AAD, push
the plaintext with the last_word marker.  Returns the final machine and
the ciphertext bytes. -/
def xlnxEncryptRun (key : List Nat) (bits : Nat) (w0 w1 w2 w3 : Nat)
    (aad pt : List Nat) : XlnxAES × List Nat :=
  let s0 := (List.range 8).foldl
    (fun s i => xlnx_aes_write_key s i (key.getD i 0)) xlnx_aes_reset
  let s1 := (xlnx_aes_load_key s0 bits).1
  let s2 := xlnx_aes_start_message s1 true
  let r3 := xlnx_aes_push_data s2 (wordsToBytesBE [w0, w1, w2, w3]) false false
  let r4 := xlnx_aes_push_data r3.1 aad true false
  let r5 := xlnx_aes_push_data r4.1 pt false true
  (r5.1, r5.2.1)

/-- The eight key register values after writing a key word list. -/
def xlnxKeyWords (key : List Nat) : List Nat :=
  [key.getD 0 0 % 2 ^ 32, key.getD 1 0 % 2 ^ 32, key.getD 2 0 % 2 ^ 32,
   key.getD 3 0 % 2 ^ 32, key.getD 4 0 % 2 ^ 32, key.getD 5 0 % 2 ^ 32,
   key.getD 6 0 % 2 ^ 32, key.getD 7 0 % 2 ^ 32]

/-- The round-key schedule the Key Store derives for a key list and bit
length. -/
def xlnxSched (key : List Nat) (bits : Nat) : List Nat :=
  keyExpand ((xlnxKeyWords key).take (bits / 32)) (bits / 32) (nrOf bits)

/-- The GCM context of a run right after the AAD phase: begin on the
assembled nonce followed by AAD absorption. -/
def xlnxCtxAfterAad (key : List Nat) (bits w0 w1 w2 : Nat)
    (aad : List Nat) : gcm_context :=
  gcmAadAbsorb
    (gcm_begin (xlnxSched key bits) (nrOf bits)
      (w0 % 2 ^ 32 * 2 ^ 64 + w1 % 2 ^ 32 * 2 ^ 32 + w2 % 2 ^ 32)) aad

/-- Full decrypt-direction protocol run: as the encrypt run but in decrypt
mode, with the ciphertext as payload followed by a push of the 16
expected-tag bytes.  Returns the final machine and the plaintext bytes. -/
def xlnxDecryptRun (key : List Nat) (bits : Nat) (w0 w1 w2 w3 : Nat)
    (aad ct : List Nat) (tw : List Nat) : XlnxAES × List Nat :=
  let s0 := (List.range 8).foldl
    (fun s i => xlnx_aes_write_key s i (key.getD i 0)) xlnx_aes_reset
  let s1 := (xlnx_aes_load_key s0 bits).1
  let s2 := xlnx_aes_start_message s1 false
  let r3 := xlnx_aes_push_data s2 (wordsToBytesBE [w0, w1, w2, w3]) false false
  let r4 := xlnx_aes_push_data r3.1 aad true false
  let r5 := xlnx_aes_push_data r4.1 ct false true
  let r6 := xlnx_aes_push_data r5.1 (wordsToBytesBE tw) false false
  (r6.1, r5.2.1 ++ r6.2.1)

/-- A sample engine state sitting at the last IV byte: phase IV3 with three
word-buffer bytes already collected and a loaded key. -/
def aesDemoIV3 : XlnxAES :=
  { xlnx_aes_reset with state := .IV3, wbuf := [0, 0, 0], key_loaded := true }

/-! ### ZynqMP Real Time Clock model

Embedded from the RTC C source (src/unnamed/part_000).  The states hold
the registers the interrupt and calibration logic touches, plus the two
interrupt output lines.  The time-keeping registers (tick_offset and the
wall clock) are outside the shallow embedding. -/

/-- All ones in 32 bits, the width of the regs array elements. -/
def u32Max : Nat := 2 ^ 32 - 1

/-- Reduce a written 64-bit value to the 32-bit register width. -/
def mask32 (v : Nat) : Nat := v % 2 ^ 32

/-- The RTC register-and-irq state: the registers used by the interrupt
and calibration logic of the C model, and the two qemu_irq output lines. -/
structure XlnxZynqMPRTC where
  rtc_int_status : Nat
  rtc_int_mask : Nat
  addr_error : Nat
  addr_error_int_mask : Nat
  calib_write : Nat
  calib_read : Nat
  alarm : Nat
  irq_rtc_int : Bool
  irq_addr_error_int : Bool
  deriving DecidableEq

/-- Modelled from the spec: the generic register-file write path
(hw/register.c is an external collaborator, not under src/): read-only
bits keep the stored value, write-one-to-clear bits are excluded from the
direct write and then cleared wherever the written value has ones. -/
def regWrite (old v ro w1c : Nat) : Nat :=
  let nw := ro ||| w1c
  (mask32 v &&& (u32Max ^^^ nw) ||| old &&& nw) &&& (u32Max ^^^ (mask32 v &&& w1c))

/-- rtc_int_update_irq: the alarm/status line is asserted iff
RTC_INT_STATUS AND NOT RTC_INT_MASK is nonzero (part_000 lines 62-66). -/
def rtc_int_update_irq (s : XlnxZynqMPRTC) : XlnxZynqMPRTC :=
  { s with irq_rtc_int := (s.rtc_int_status &&& (u32Max ^^^ s.rtc_int_mask)) != 0 }

/-- addr_error_int_update_irq (part_000 lines 68-72). -/
def addr_error_int_update_irq (s : XlnxZynqMPRTC) : XlnxZynqMPRTC :=
  { s with irq_addr_error_int := (s.addr_error &&& (u32Max ^^^ s.addr_error_int_mask)) != 0 }

/-- Bus write to RTC_INT_STATUS: w1c mask 0x3, then rtc_int_status_postw
runs rtc_int_update_irq (part_000 lines 87-91, 163-165). -/
def rtc_write_int_status (s : XlnxZynqMPRTC) (v : Nat) : XlnxZynqMPRTC :=
  rtc_int_update_irq { s with rtc_int_status := regWrite s.rtc_int_status v 0 0x3 }

/-- Bus write to RTC_INT_EN: rtc_int_en_prew clears the written bits in
RTC_INT_MASK and updates the irq line (part_000 lines 93-100). -/
def rtc_write_int_en (s : XlnxZynqMPRTC) (v : Nat) : XlnxZynqMPRTC :=
  rtc_int_update_irq { s with rtc_int_mask := s.rtc_int_mask &&& (u32Max ^^^ mask32 v) }

/-- Bus write to RTC_INT_DIS: rtc_int_dis_prew sets the written bits in
RTC_INT_MASK and updates the irq line (part_000 lines 102-109). -/
def rtc_write_int_dis (s : XlnxZynqMPRTC) (v : Nat) : XlnxZynqMPRTC :=
  rtc_int_update_irq { s with rtc_int_mask := s.rtc_int_mask ||| mask32 v }

/-- Bus write to CALIB_WRITE: the register stores the value and
rtc_calib_write_postw copies it into CALIB_READ (part_000 lines 141-145,
153-154). -/
def rtc_write_calib_write (s : XlnxZynqMPRTC) (v : Nat) : XlnxZynqMPRTC :=
  { s with calib_write := mask32 v, calib_read := mask32 v }

/-- Bus write to CALIB_READ: read-only mask 0x1fffff, no hooks
(part_000 lines 155-156). -/
def rtc_write_calib_read (s : XlnxZynqMPRTC) (v : Nat) : XlnxZynqMPRTC :=
  { s with calib_read := regWrite s.calib_read v 0x1fffff 0 }

/-- Bus write to ALARM: no masks, no hooks (part_000 line 162). -/
def rtc_write_alarm (s : XlnxZynqMPRTC) (v : Nat) : XlnxZynqMPRTC :=
  { s with alarm := mask32 v }

/-- Bus write to ADDR_ERROR: w1c mask 0x1, then addr_error_postw
(part_000 lines 111-115, 173-175). -/
def rtc_write_addr_error (s : XlnxZynqMPRTC) (v : Nat) : XlnxZynqMPRTC :=
  addr_error_int_update_irq { s with addr_error := regWrite s.addr_error v 0 0x1 }

/-- Bus read of CALIB_READ: returns the stored value, no post_read hook
(part_000 lines 155-156). -/
def rtc_read_calib_read (s : XlnxZynqMPRTC) : Nat := s.calib_read

/-- rtc_reset (part_000 lines 214-234): every register returns to its
reset value (RTC_INT_MASK 0x3, ADDR_ERROR_INT_MASK 0x1, the others 0),
then both irq lines are recomputed. -/
def rtc_reset (s : XlnxZynqMPRTC) : XlnxZynqMPRTC :=
  addr_error_int_update_irq (rtc_int_update_irq
    { s with rtc_int_status := 0, rtc_int_mask := 0x3, addr_error := 0,
             addr_error_int_mask := 0x1, calib_write := 0, calib_read := 0,
             alarm := 0 })

/-- The guest-visible register operations of the RTC model. -/
inductive RtcOp where
  | wIntStatus (v : Nat)
  | wIntEn (v : Nat)
  | wIntDis (v : Nat)
  | wCalibWrite (v : Nat)
  | wCalibRead (v : Nat)
  | wAlarm (v : Nat)
  | wAddrError (v : Nat)
  | reset
  deriving DecidableEq

/-- Apply one register operation. -/
def rtcApply (s : XlnxZynqMPRTC) : RtcOp → XlnxZynqMPRTC
  | .wIntStatus v => rtc_write_int_status s v
  | .wIntEn v => rtc_write_int_en s v
  | .wIntDis v => rtc_write_int_dis s v
  | .wCalibWrite v => rtc_write_calib_write s v
  | .wCalibRead v => rtc_write_calib_read s v
  | .wAlarm v => rtc_write_alarm s v
  | .wAddrError v => rtc_write_addr_error s v
  | .reset => rtc_reset s

/-- Apply a sequence of register operations in order. -/
def rtcApplyOps (s : XlnxZynqMPRTC) (ops : List RtcOp) : XlnxZynqMPRTC :=
  ops.foldl rtcApply s

/-- The RTC state right after device reset. -/
def rtcInit : XlnxZynqMPRTC :=
  { rtc_int_status := 0, rtc_int_mask := 0x3, addr_error := 0,
    addr_error_int_mask := 0x1, calib_write := 0, calib_read := 0,
    alarm := 0, irq_rtc_int := false, irq_addr_error_int := false }

/-- The alarm/status interrupt line tracks
RTC_INT_STATUS AND NOT RTC_INT_MASK. -/
def rtcIrqInv (s : XlnxZynqMPRTC) : Prop :=
  s.irq_rtc_int = ((s.rtc_int_status &&& (u32Max ^^^ s.rtc_int_mask)) != 0)

/-- Register operations that neither write CALIB_WRITE, nor write
CALIB_READ directly, nor reset the device. -/
def rtcOpPreservesCalib : RtcOp → Bool
  | .wCalibWrite _ => false
  | .wCalibRead _ => false
  | .reset => false
  | _ => true


theorem length_natToBytesBE (len n : Nat) : (natToBytesBE len n).length = len := by
  simp [natToBytesBE]

theorem mem_natToBytesBE_lt (len n : Nat) : ∀ x ∈ natToBytesBE len n, x < 256 := by
  intro x hx
  simp [natToBytesBE] at hx
  obtain ⟨i, _, hi⟩ := hx
  omega

theorem length_ksBytes (c : gcm_context) : (ksBytes c).length = 16 := by
  simp [ksBytes, length_natToBytesBE]

theorem length_xorBytes (a b : List Nat) :
    (xorBytes a b).length = min a.length b.length := by
  simp [xorBytes]

theorem xorBytes_cancel : ∀ (a b : List Nat), a.length ≤ b.length →
    xorBytes (xorBytes a b) b = a := by
  intro a
  induction a with
  | nil => intro b _; rfl
  | cons x xs ih =>
      intro b hb
      cases b with
      | nil => simp at hb
      | cons y ys =>
          simp [xorBytes] at *
          exact ⟨Nat.xor_cancel_right y x, ih ys hb⟩

theorem map_mod_eq_self (l : List Nat) (h : ∀ x ∈ l, x < 256) :
    l.map (· % 256) = l := by
  induction l with
  | nil => rfl
  | cons x xs ih =>
      simp only [List.map_cons]
      rw [Nat.mod_eq_of_lt (h x (by simp)), ih (fun y hy => h y (by simp [hy]))]

theorem mem_xorBytes_lt : ∀ (a b : List Nat), (∀ x ∈ a, x < 256) →
    (∀ x ∈ b, x < 256) → ∀ x ∈ xorBytes a b, x < 256 := by
  intro a
  induction a with
  | nil => intro b _ _ x hx; simp [xorBytes] at hx
  | cons y ys ih =>
      intro b ha hb x hx
      cases b with
      | nil => simp [xorBytes] at hx
      | cons z zs =>
          simp [xorBytes] at hx
          rcases hx with h | h
          · subst h
            have h1 : y < 2 ^ 8 := by simpa using ha y (by simp)
            have h2 : z < 2 ^ 8 := by simpa using hb z (by simp)
            simpa using Nat.xor_lt_two_pow h1 h2
          · exact ih zs (fun u hu => ha u (by simp [hu]))
              (fun u hu => hb u (by simp [hu])) x h

theorem gcmPayloadRun_append (enc : Bool) :
    ∀ (a b : List Nat) (c : gcm_context),
      gcmPayloadRun enc c (a ++ b)
        = ((gcmPayloadRun enc (gcmPayloadRun enc c a).1 b).1,
           (gcmPayloadRun enc c a).2 ++ (gcmPayloadRun enc (gcmPayloadRun enc c a).1 b).2) := by
  intro a
  induction a with
  | nil => intro b c; simp [gcmPayloadRun]
  | cons x xs ih =>
      intro b c
      simp only [List.cons_append, gcmPayloadRun, List.append_eq]
      rw [ih]
      simp [List.append_assoc]

theorem gcmPayloadRun_small (enc : Bool) :
    ∀ (pt : List Nat) (c : gcm_context), c.buf.length + pt.length < 16 →
      gcmPayloadRun enc c pt
        = ({ c with ctLen := c.ctLen + pt.length, buf := c.buf ++ pt.map (· % 256) }, []) := by
  intro pt
  induction pt with
  | nil => intro c _; simp [gcmPayloadRun]
  | cons b bs ih =>
      intro c hlen
      simp only [gcmPayloadRun, gcmPayloadByte]
      have hne : ¬ (c.buf ++ [b % 256]).length = 16 := by
        simp; simp at hlen; omega
      simp only [hne, if_false]
      rw [ih]
      · simp [List.append_assoc]
        omega
      · simp; simp at hlen; omega


theorem gcmPayloadRun_block (enc : Bool) (c : gcm_context) (block : List Nat)
    (hb : c.buf = []) (hlen : block.length = 16) :
    gcmPayloadRun enc c block = gcmBlock enc c block := by
  obtain ⟨x, hx⟩ : ∃ x, block.drop 15 = [x] := by
    have h1 : (block.drop 15).length = 1 := by simp [hlen]
    exact List.length_eq_one.mp h1
  have hblock : block = block.take 15 ++ [x] := by
    rw [← hx, List.take_append_drop]
  have htl : (block.take 15).length = 15 := by
    simp [hlen]
  have hsmall : c.buf.length + (block.take 15).length < 16 := by
    rw [hb, htl]; simp
  conv_lhs => rw [hblock]
  rw [gcmPayloadRun_append, gcmPayloadRun_small enc _ c hsmall]
  simp only [gcmPayloadRun, gcmPayloadByte]
  have hbuf16 : ((c.buf ++ (block.take 15).map (· % 256)) ++ [x % 256]).length = 16 := by
    simp [hb, htl]
    omega
  simp only [hbuf16, if_pos rfl]
  have hmap : (c.buf ++ (block.take 15).map (· % 256)) ++ [x % 256] = block.map (· % 256) := by
    have hone : [x % 256] = List.map (· % 256) [x] := rfl
    rw [hb, List.nil_append, hone, ← List.map_append, ← hblock]
  simp only [gcmBlock, hmap]
  simp [ksBytes, htl]


theorem gcmPayloadAll_nil (enc : Bool) (c : gcm_context) (hb : c.buf = []) :
    gcmPayloadAll enc c [] = (c, []) := by
  simp [gcmPayloadAll, gcmPayloadRun, gcmPayloadFlush, hb]

theorem gcmPayloadAll_small (enc : Bool) (c : gcm_context) (pt : List Nat)
    (hb : c.buf = []) (hlen : pt.length < 16) (hne : pt ≠ []) :
    gcmPayloadAll enc c pt =
      ({ c with ctr := inc32 c.ctr,
                acc := ghashUpd c.h c.acc (padBlock
                  (if enc then xorBytes (pt.map (· % 256)) (ksBytes c)
                   else pt.map (· % 256))),
                ctLen := c.ctLen + pt.length, buf := [] },
       xorBytes (pt.map (· % 256)) (ksBytes c)) := by
  rw [gcmPayloadAll, gcmPayloadRun_small enc pt c (by rw [hb]; simpa using hlen)]
  have hme : pt.map (· % 256) ≠ [] := by simpa using hne
  simp only [hb, List.nil_append, gcmPayloadFlush, hme, if_neg hme]
  simp [ksBytes]

theorem gcmPayloadAll_block (enc : Bool) (c : gcm_context) (pt : List Nat)
    (hb : c.buf = []) (hlen : 16 ≤ pt.length) :
    gcmPayloadAll enc c pt =
      ((gcmPayloadAll enc (gcmBlock enc c (pt.take 16)).1 (pt.drop 16)).1,
       (gcmBlock enc c (pt.take 16)).2
         ++ (gcmPayloadAll enc (gcmBlock enc c (pt.take 16)).1 (pt.drop 16)).2) := by
  have ht : (pt.take 16).length = 16 := by simp [hlen]
  conv_lhs => rw [gcmPayloadAll, ← List.take_append_drop 16 pt]
  rw [gcmPayloadRun_append, gcmPayloadRun_block enc c _ hb ht]
  simp [gcmPayloadAll, List.append_assoc]

theorem mem_map_mod_lt (l : List Nat) : ∀ x ∈ l.map (· % 256), x < 256 := by
  intro x hx
  simp at hx
  obtain ⟨y, _, hy⟩ := hx
  omega

theorem gcmBlock_roundtrip (c : gcm_context) (block : List Nat)
    (hlen : block.length = 16) :
    gcmBlock false c ((gcmBlock true c block).2)
      = ((gcmBlock true c block).1, block.map (· % 256)) := by
  have hks : (ksBytes c).length = 16 := length_ksBytes c
  have hmlen : (block.map (· % 256)).length = 16 := by simp [hlen]
  have hout_lt : ∀ x ∈ xorBytes (block.map (· % 256)) (ksBytes c), x < 256 :=
    mem_xorBytes_lt _ _ (mem_map_mod_lt block) (mem_natToBytesBE_lt 16 _)
  have hmap : (xorBytes (block.map (· % 256)) (ksBytes c)).map (· % 256)
      = xorBytes (block.map (· % 256)) (ksBytes c) := map_mod_eq_self _ hout_lt
  have hcancel : xorBytes (xorBytes (block.map (· % 256)) (ksBytes c)) (ksBytes c)
      = block.map (· % 256) := xorBytes_cancel _ _ (by rw [hmlen, hks])
  simp only [gcmBlock, if_true, if_false, Bool.false_eq_true]
  simp only [hmap, hcancel]

theorem gcmPayloadAll_roundtrip_aux :
    ∀ (n : Nat) (pt : List Nat) (c : gcm_context), pt.length ≤ n → c.buf = [] →
      gcmPayloadAll false c ((gcmPayloadAll true c pt).2)
        = ((gcmPayloadAll true c pt).1, pt.map (· % 256)) := by
  intro n
  induction n with
  | zero =>
      intro pt c hlen hb
      have : pt = [] := List.length_eq_zero.mp (Nat.le_zero.mp hlen)
      subst this
      rw [gcmPayloadAll_nil true c hb, gcmPayloadAll_nil false c hb]
      rfl
  | succ n ih =>
      intro pt c hlen hb
      by_cases hnil : pt = []
      · subst hnil
        rw [gcmPayloadAll_nil true c hb, gcmPayloadAll_nil false c hb]
        rfl
      by_cases h16 : pt.length < 16
      · rw [gcmPayloadAll_small true c pt hb h16 hnil]
        have hks : (ksBytes c).length = 16 := length_ksBytes c
        have hmlen : (pt.map (· % 256)).length = pt.length := by simp
        have hout_len : (xorBytes (pt.map (· % 256)) (ksBytes c)).length = pt.length := by
          rw [length_xorBytes, hmlen, hks]
          omega
        have hout_lt : ∀ x ∈ xorBytes (pt.map (· % 256)) (ksBytes c), x < 256 :=
          mem_xorBytes_lt _ _ (mem_map_mod_lt pt) (mem_natToBytesBE_lt 16 _)
        have hout_ne : xorBytes (pt.map (· % 256)) (ksBytes c) ≠ [] := by
          intro h
          rw [h] at hout_len
          simp at hout_len
          exact hnil (List.length_eq_zero.mp hout_len.symm)
        rw [gcmPayloadAll_small false c _ hb (by rw [hout_len]; exact h16) hout_ne]
        have hmap : (xorBytes (pt.map (· % 256)) (ksBytes c)).map (· % 256)
            = xorBytes (pt.map (· % 256)) (ksBytes c) := map_mod_eq_self _ hout_lt
        have hcancel : xorBytes (xorBytes (pt.map (· % 256)) (ksBytes c)) (ksBytes c)
            = pt.map (· % 256) := xorBytes_cancel _ _ (by rw [hmlen, hks]; omega)
        simp only [hmap, hcancel, hout_len, if_true, if_false, Bool.false_eq_true]
      · push_neg at h16
        rw [gcmPayloadAll_block true c pt hb h16]
        have ht16 : (pt.take 16).length = 16 := by
          simp [h16]
        have hB2len : ((gcmBlock true c (pt.take 16)).2).length = 16 := by
          simp only [gcmBlock]
          rw [length_xorBytes, length_ksBytes]
          simp [ht16]
          omega
        have hBbuf : ((gcmBlock true c (pt.take 16)).1).buf = [] := rfl
        have hdroplen : (pt.drop 16).length ≤ n := by
          simp
          omega
        have hRe2 := ih (pt.drop 16) ((gcmBlock true c (pt.take 16)).1) hdroplen hBbuf
        have hcatlen : 16 ≤ ((gcmBlock true c (pt.take 16)).2
            ++ (gcmPayloadAll true (gcmBlock true c (pt.take 16)).1 (pt.drop 16)).2).length := by
          simp [hB2len]
        rw [gcmPayloadAll_block false c _ hb hcatlen]
        rw [List.take_left' hB2len, List.drop_left' hB2len]
        rw [gcmBlock_roundtrip c (pt.take 16) ht16]
        simp only [hRe2]
        have hjoin : (pt.take 16).map (· % 256) ++ (pt.drop 16).map (· % 256)
            = pt.map (· % 256) := by
          rw [← List.map_append, List.take_append_drop]
        simp [hjoin]

theorem aesRunBytes_acc (f : Bool) :
    ∀ (data : List Nat) (s : XlnxAES) (o : List Nat),
      data.foldl (fun p b =>
          let q := aesStepByte p.1 f b
          (q.1, p.2 ++ q.2)) (s, o)
        = ((aesRunBytes s f data).1, o ++ (aesRunBytes s f data).2) := by
  intro data
  induction data with
  | nil => intro s o; simp [aesRunBytes]
  | cons b bs ih =>
      intro s o
      simp only [aesRunBytes, List.foldl_cons]
      rw [ih, ih]
      simp [List.append_assoc]

theorem aesRunBytes_cons (f : Bool) (s : XlnxAES) (b : Nat) (bs : List Nat) :
    aesRunBytes s f (b :: bs)
      = ((aesRunBytes (aesStepByte s f b).1 f bs).1,
         (aesStepByte s f b).2 ++ (aesRunBytes (aesStepByte s f b).1 f bs).2) := by
  simp only [aesRunBytes, List.foldl_cons]
  rw [aesRunBytes_acc]
  simp [aesRunBytes]

theorem aesRunBytes_idle : ∀ (data : List Nat) (f : Bool) (s : XlnxAES),
    s.state = .IDLE → aesRunBytes s f data = (s, []) := by
  intro data
  induction data with
  | nil => intro f s _; rfl
  | cons b bs ih =>
      intro f s h
      rw [aesRunBytes_cons]
      have hstep : aesStepByte s f b = (s, []) := by
        simp [aesStepByte, h]
      rw [hstep, ih f s h]
      simp

theorem aesRunBytes_aad : ∀ (data : List Nat) (s : XlnxAES), s.state = .AAD →
    aesRunBytes s true data
      = ({ s with gcm_ctx := data.foldl gcmAadByte s.gcm_ctx }, []) := by
  intro data
  induction data with
  | nil => intro s _; simp [aesRunBytes]
  | cons b bs ih =>
      intro s h
      rw [aesRunBytes_cons]
      have hstep : aesStepByte s true b = ({ s with gcm_ctx := gcmAadByte s.gcm_ctx b }, []) := by
        simp [aesStepByte, h]
      rw [hstep, ih { s with gcm_ctx := gcmAadByte s.gcm_ctx b } h]
      simp

theorem aesRunBytes_payload : ∀ (data : List Nat) (f : Bool) (s : XlnxAES),
    s.state = .PAYLOAD →
    aesRunBytes s f data
      = ({ s with gcm_ctx := (gcmPayloadRun s.encrypt s.gcm_ctx data).1 },
         (gcmPayloadRun s.encrypt s.gcm_ctx data).2) := by
  intro data
  induction data with
  | nil => intro f s _; simp [aesRunBytes, gcmPayloadRun]
  | cons b bs ih =>
      intro f s h
      rw [aesRunBytes_cons]
      have hstep : aesStepByte s f b
          = ({ s with gcm_ctx := (gcmPayloadByte s.encrypt s.gcm_ctx b).1 },
             (gcmPayloadByte s.encrypt s.gcm_ctx b).2) := by
        cases f <;> simp [aesStepByte, h, aesPayloadByte]
      rw [hstep, ih f { s with gcm_ctx := (gcmPayloadByte s.encrypt s.gcm_ctx b).1 } h]
      simp [gcmPayloadRun]

theorem gcmAadFlush_buf (c : gcm_context) : (gcmAadFlush c).buf = [] := by
  by_cases h : c.buf = [] <;> simp [gcmAadFlush, h]

theorem pack_unpack4 (w : Nat) : bytesToNatBE (natToBytesBE 4 w) = w % 2 ^ 32 := by
  simp [natToBytesBE, bytesToNatBE, List.range_succ]
  omega

theorem xlnx_push_iv (s : XlnxAES) (f : Bool) (w0 w1 w2 w3 : Nat)
    (h : s.state = .IV0) (hw : s.wbuf = []) (hiv : s.iv = [0, 0, 0, 0])
    (hl : s.key_loaded = true) :
    xlnx_aes_push_data s (wordsToBytesBE [w0, w1, w2, w3]) f false
      = ({ s with iv := [w0 % 2 ^ 32, w1 % 2 ^ 32, w2 % 2 ^ 32, w3 % 2 ^ 32],
                  wbuf := [], state := .AAD,
                  gcm_ctx := gcm_begin s.sched (nrOf s.keylen)
                    (w0 % 2 ^ 32 * 2 ^ 64 + w1 % 2 ^ 32 * 2 ^ 32 + w2 % 2 ^ 32) },
         [], none) := by
  have hni : ¬ s.state = .IDLE := by rw [h]; simp
  simp only [xlnx_aes_push_data, hni, if_false, hl, Bool.not_true, ite_false]
  have hp : ∀ w : Nat,
      ((w / 16777216 % 256 * 256 + w / 65536 % 256) * 256 + w / 256 % 256) * 256
        + w % 256 = w % 4294967296 := by
    intro w
    omega
  simp [aesRunBytes, aesStepByte, h, hw, hiv, wordsToBytesBE, natToBytesBE,
    List.range_succ, bytesToNatBE, nonceOfIv, gcm_begin, hp, hl]

theorem xlnx_push_aad (s : XlnxAES) (aad : List Nat)
    (h : s.state = .AAD) (hl : s.key_loaded = true) :
    xlnx_aes_push_data s aad true false
      = ({ s with gcm_ctx := aad.foldl gcmAadByte s.gcm_ctx }, [], none) := by
  have hni : ¬ s.state = .IDLE := by rw [h]; simp
  simp only [xlnx_aes_push_data, hni, if_false, hl, Bool.not_true, ite_false]
  rw [aesRunBytes_aad aad s h]
  simp [hl]

theorem xlnx_push_payload_last (s : XlnxAES) (pt : List Nat)
    (h : s.state = .AAD) (hl : s.key_loaded = true) :
    xlnx_aes_push_data s pt false true
      = (if s.encrypt then
           aesEmit4 { s with
             gcm_ctx := (gcmPayloadAll s.encrypt (gcmAadFlush s.gcm_ctx) pt).1,
             state := .TAG0 }
         else { s with
             gcm_ctx := (gcmPayloadAll s.encrypt (gcmAadFlush s.gcm_ctx) pt).1,
             state := .TAG0 },
         (gcmPayloadAll s.encrypt (gcmAadFlush s.gcm_ctx) pt).2, none) := by
  have hni : ¬ s.state = .IDLE := by rw [h]; simp
  simp only [xlnx_aes_push_data, hni, if_false, hl, Bool.not_true, ite_false]
  cases pt with
  | nil =>
      have hflush : gcmPayloadFlush s.encrypt (gcmAadFlush s.gcm_ctx)
          = (gcmAadFlush s.gcm_ctx, []) := by
        simp [gcmPayloadFlush, gcmAadFlush_buf]
      simp only [aesRunBytes, List.foldl_nil, aesLastWord, h, aesEndPayload, hflush,
        gcmPayloadAll_nil _ _ (gcmAadFlush_buf s.gcm_ctx)]
      by_cases he : s.encrypt <;> simp [he, hl]
  | cons b bs =>
      rw [aesRunBytes_cons]
      have hstep : aesStepByte s false b
          = ({ s with
                gcm_ctx := (gcmPayloadByte s.encrypt (gcmAadFlush s.gcm_ctx) b).1,
                state := .PAYLOAD },
             (gcmPayloadByte s.encrypt (gcmAadFlush s.gcm_ctx) b).2) := by
        simp [aesStepByte, h, aesPayloadByte]
      rw [hstep, aesRunBytes_payload bs false _ rfl]
      simp only [aesLastWord, aesEndPayload, gcmPayloadAll, gcmPayloadRun]
      by_cases he : s.encrypt <;> simp [he, hl, List.append_assoc]

theorem aesEmit4_shape (s : XlnxAES) (h : s.state = .TAG0) (ht : s.tag = [0, 0, 0, 0]) :
    aesEmit4 s = { s with tag := tagWords (gcm_finish s.gcm_ctx), state := .IDLE,
                          done := true, inp_ready := false } := by
  simp [aesEmit4, aesEmitTagStep, h, ht, tagWords, List.set]

theorem xlnx_push_tag (s : XlnxAES) (f : Bool) (t0 t1 t2 t3 : Nat)
    (h : s.state = .TAG0) (hw : s.wbuf = []) (ht : s.tag = [0, 0, 0, 0])
    (hl : s.key_loaded = true) :
    xlnx_aes_push_data s (wordsToBytesBE [t0, t1, t2, t3]) f false
      = ({ s with tag := [t0 % 2 ^ 32, t1 % 2 ^ 32, t2 % 2 ^ 32, t3 % 2 ^ 32],
                  wbuf := [], state := .IDLE, done := true, inp_ready := false,
                  tag_ok := decide (tagWords (gcm_finish s.gcm_ctx)
                    = [t0 % 2 ^ 32, t1 % 2 ^ 32, t2 % 2 ^ 32, t3 % 2 ^ 32]) },
         [], none) := by
  have hni : ¬ s.state = .IDLE := by rw [h]; simp
  simp only [xlnx_aes_push_data, hni, if_false, hl, Bool.not_true, ite_false]
  have hp : ∀ w : Nat,
      ((w / 16777216 % 256 * 256 + w / 65536 % 256) * 256 + w / 256 % 256) * 256
        + w % 256 = w % 4294967296 := by
    intro w
    omega
  simp [aesRunBytes, aesStepByte, h, hw, ht, wordsToBytesBE, natToBytesBE,
    List.range_succ, bytesToNatBE, List.set, hp, hl]

theorem writeKeys_shape (key : List Nat) :
    (List.range 8).foldl (fun s i => xlnx_aes_write_key s i (key.getD i 0)) xlnx_aes_reset
      = { xlnx_aes_reset with
            key := [key.getD 0 0 % 2 ^ 32, key.getD 1 0 % 2 ^ 32, key.getD 2 0 % 2 ^ 32,
                    key.getD 3 0 % 2 ^ 32, key.getD 4 0 % 2 ^ 32, key.getD 5 0 % 2 ^ 32,
                    key.getD 6 0 % 2 ^ 32, key.getD 7 0 % 2 ^ 32],
            key_zeroed := false } := by
  simp [List.range_succ, xlnx_aes_write_key, xlnx_aes_reset, List.set]


theorem encryptRun_shape (key : List Nat) (bits w0 w1 w2 w3 : Nat)
    (aad pt : List Nat) (hb : bits = 128 ∨ bits = 192 ∨ bits = 256) :
    xlnxEncryptRun key bits w0 w1 w2 w3 aad pt
      = (aesEmit4
          { xlnx_aes_reset with
            key := xlnxKeyWords key, keylen := bits, key_loaded := true,
            sched := xlnxSched key bits, encrypt := true, inp_ready := true,
            iv := [w0 % 2 ^ 32, w1 % 2 ^ 32, w2 % 2 ^ 32, w3 % 2 ^ 32],
            state := .TAG0,
            gcm_ctx := (gcmPayloadAll true (xlnxCtxAfterAad key bits w0 w1 w2 aad) pt).1 },
         (gcmPayloadAll true (xlnxCtxAfterAad key bits w0 w1 w2 aad) pt).2) := by
  rw [xlnxEncryptRun, writeKeys_shape]
  rw [show xlnx_aes_load_key _ bits = _ from if_pos hb]
  rw [xlnx_aes_start_message]
  rw [xlnx_push_iv _ false w0 w1 w2 w3 rfl rfl rfl rfl]
  rw [xlnx_push_aad _ aad rfl rfl]
  rw [xlnx_push_payload_last _ pt rfl rfl]
  simp [gcmAadAbsorb, gcmPayloadAll, xlnx_aes_reset, xlnxKeyWords, xlnxSched,
    xlnxCtxAfterAad]

theorem decryptRun_shape (key : List Nat) (bits w0 w1 w2 w3 : Nat)
    (aad ct : List Nat) (t0 t1 t2 t3 : Nat)
    (hb : bits = 128 ∨ bits = 192 ∨ bits = 256) :
    xlnxDecryptRun key bits w0 w1 w2 w3 aad ct [t0, t1, t2, t3]
      = ({ xlnx_aes_reset with
            key := xlnxKeyWords key, keylen := bits, key_loaded := true,
            sched := xlnxSched key bits, encrypt := false, inp_ready := false,
            iv := [w0 % 2 ^ 32, w1 % 2 ^ 32, w2 % 2 ^ 32, w3 % 2 ^ 32],
            state := .IDLE, done := true,
            tag := [t0 % 2 ^ 32, t1 % 2 ^ 32, t2 % 2 ^ 32, t3 % 2 ^ 32],
            gcm_ctx := (gcmPayloadAll false (xlnxCtxAfterAad key bits w0 w1 w2 aad) ct).1,
            tag_ok := decide (tagWords (gcm_finish
              (gcmPayloadAll false (xlnxCtxAfterAad key bits w0 w1 w2 aad) ct).1)
              = [t0 % 2 ^ 32, t1 % 2 ^ 32, t2 % 2 ^ 32, t3 % 2 ^ 32]) },
         (gcmPayloadAll false (xlnxCtxAfterAad key bits w0 w1 w2 aad) ct).2) := by
  rw [xlnxDecryptRun, writeKeys_shape]
  rw [show xlnx_aes_load_key _ bits = _ from if_pos hb]
  rw [xlnx_aes_start_message]
  rw [xlnx_push_iv _ false w0 w1 w2 w3 rfl rfl rfl rfl]
  rw [xlnx_push_aad _ aad rfl rfl]
  rw [xlnx_push_payload_last _ ct rfl rfl]
  simp only [Bool.false_eq_true, if_false, ite_false]
  rw [xlnx_push_tag _ false t0 t1 t2 t3 rfl rfl rfl rfl]
  simp [gcmAadAbsorb, gcmPayloadAll, xlnx_aes_reset, xlnxKeyWords, xlnxSched,
    xlnxCtxAfterAad]

theorem ctxAfterAad_buf (key : List Nat) (bits w0 w1 w2 : Nat) (aad : List Nat) :
    (xlnxCtxAfterAad key bits w0 w1 w2 aad).buf = [] := by
  simp [xlnxCtxAfterAad, gcmAadAbsorb, gcmAadFlush_buf]

/-- Claim C1: for every supported key length (128, 192 or 256 bits) and for
every key, IV, AAD and plaintext (byte values), running the engine in
decrypt mode on the ciphertext and tag produced by running it in encrypt
mode under the same key, IV and AAD yields the original plaintext, latches
tag_ok = true, asserts done and returns to IDLE. -/
theorem C1_roundtrip (key : List Nat) (bits w0 w1 w2 w3 : Nat) (aad pt : List Nat)
    (hb : bits = 128 ∨ bits = 192 ∨ bits = 256) (hpt : ∀ b ∈ pt, b < 256) :
    (xlnxDecryptRun key bits w0 w1 w2 w3 aad
        (xlnxEncryptRun key bits w0 w1 w2 w3 aad pt).2
        (xlnxEncryptRun key bits w0 w1 w2 w3 aad pt).1.tag).2 = pt ∧
    (xlnxDecryptRun key bits w0 w1 w2 w3 aad
        (xlnxEncryptRun key bits w0 w1 w2 w3 aad pt).2
        (xlnxEncryptRun key bits w0 w1 w2 w3 aad pt).1.tag).1.tag_ok = true ∧
    (xlnxDecryptRun key bits w0 w1 w2 w3 aad
        (xlnxEncryptRun key bits w0 w1 w2 w3 aad pt).2
        (xlnxEncryptRun key bits w0 w1 w2 w3 aad pt).1.tag).1.done = true ∧
    (xlnxDecryptRun key bits w0 w1 w2 w3 aad
        (xlnxEncryptRun key bits w0 w1 w2 w3 aad pt).2
        (xlnxEncryptRun key bits w0 w1 w2 w3 aad pt).1.tag).1.state = .IDLE := by
  rw [encryptRun_shape key bits w0 w1 w2 w3 aad pt hb]
  rw [aesEmit4_shape _ rfl rfl]
  simp only [tagWords]
  rw [decryptRun_shape key bits w0 w1 w2 w3 aad _ _ _ _ _ hb]
  have hRT := gcmPayloadAll_roundtrip_aux pt.length pt
    (xlnxCtxAfterAad key bits w0 w1 w2 aad) le_rfl
    (ctxAfterAad_buf key bits w0 w1 w2 aad)
  rw [hRT]
  have hmm : ∀ x : Nat, x % 2 ^ 32 % 2 ^ 32 = x % 2 ^ 32 := by
    intro x
    omega
  simp [hmm, map_mod_eq_self pt hpt, tagWords]

theorem aesStepByte_key_loaded (s : XlnxAES) (f : Bool) (b : Nat) :
    (aesStepByte s f b).1.key_loaded = s.key_loaded := by
  cases h : s.state <;>
    simp [aesStepByte, h, aesPayloadByte] <;>
    split <;>
    simp

theorem aesRunBytes_key_loaded (f : Bool) :
    ∀ (data : List Nat) (s : XlnxAES),
      (aesRunBytes s f data).1.key_loaded = s.key_loaded := by
  intro data
  induction data with
  | nil => intro s; rfl
  | cons b bs ih =>
      intro s
      rw [aesRunBytes_cons]
      simp [ih, aesStepByte_key_loaded]

theorem aesRunBytes_append (f : Bool) (a b : List Nat) (s : XlnxAES) :
    aesRunBytes s f (a ++ b)
      = ((aesRunBytes (aesRunBytes s f a).1 f b).1,
         (aesRunBytes s f a).2 ++ (aesRunBytes (aesRunBytes s f a).1 f b).2) := by
  have h := aesRunBytes_acc f b (aesRunBytes s f a).1 (aesRunBytes s f a).2
  simp only [aesRunBytes, List.foldl_append] at *
  exact h

theorem push2_append (s : XlnxAES) (a b : List Nat) (f lw : Bool) :
    ((xlnx_aes_push_data (xlnx_aes_push_data s a f false).1 b f lw).1,
     (xlnx_aes_push_data s a f false).2.1
       ++ (xlnx_aes_push_data (xlnx_aes_push_data s a f false).1 b f lw).2.1)
      = ((xlnx_aes_push_data s (a ++ b) f lw).1,
         (xlnx_aes_push_data s (a ++ b) f lw).2.1) := by
  by_cases hidle : s.state = .IDLE
  · simp [xlnx_aes_push_data, hidle]
  by_cases hload : s.key_loaded
  · simp only [xlnx_aes_push_data, hidle, if_false, hload, Bool.not_true, ite_false,
      if_true, ite_true, not_true_eq_false, if_neg hidle]
    rw [aesRunBytes_append]
    by_cases hidle1 : (aesRunBytes s f a).1.state = .IDLE
    · rw [aesRunBytes_idle b f _ hidle1]
      have hlast : aesLastWord (aesRunBytes s f a).1 = ((aesRunBytes s f a).1, []) := by
        simp [aesLastWord, hidle1]
      cases lw <;> simp [hidle1, hlast, hload, aesRunBytes_key_loaded]
    · cases lw <;> simp [hidle1, hload, aesRunBytes_key_loaded, List.append_assoc]
  · simp [xlnx_aes_push_data, hidle, hload]

theorem push_many_acc (f : Bool) :
    ∀ (parts : List (List Nat)) (s : XlnxAES) (o : List Nat) (e : Option AESError),
      (parts.foldl (fun p part =>
          let q := xlnx_aes_push_data p.1 part f false
          (q.1, p.2.1 ++ q.2.1, q.2.2)) (s, o, e)).1
        = (xlnx_aes_push_many s parts f).1 ∧
      (parts.foldl (fun p part =>
          let q := xlnx_aes_push_data p.1 part f false
          (q.1, p.2.1 ++ q.2.1, q.2.2)) (s, o, e)).2.1
        = o ++ (xlnx_aes_push_many s parts f).2.1 := by
  intro parts
  induction parts with
  | nil => intro s o e; simp [xlnx_aes_push_many]
  | cons p ps ih =>
      intro s o e
      simp only [xlnx_aes_push_many, List.foldl_cons]
      obtain ⟨ih1, ih2⟩ := ih (xlnx_aes_push_data s p f false).1
        (o ++ (xlnx_aes_push_data s p f false).2.1) (xlnx_aes_push_data s p f false).2.2
      obtain ⟨jh1, jh2⟩ := ih (xlnx_aes_push_data s p f false).1
        ([] ++ (xlnx_aes_push_data s p f false).2.1) (xlnx_aes_push_data s p f false).2.2
      constructor
      · rw [ih1, jh1]
      · rw [ih2, jh2]
        simp [xlnx_aes_push_many, List.append_assoc]

theorem push_many_cons (f : Bool) (s : XlnxAES) (p : List Nat) (ps : List (List Nat)) :
    (xlnx_aes_push_many s (p :: ps) f).1
        = (xlnx_aes_push_many (xlnx_aes_push_data s p f false).1 ps f).1 ∧
    (xlnx_aes_push_many s (p :: ps) f).2.1
        = (xlnx_aes_push_data s p f false).2.1
          ++ (xlnx_aes_push_many (xlnx_aes_push_data s p f false).1 ps f).2.1 := by
  simp only [xlnx_aes_push_many, List.foldl_cons]
  obtain ⟨h1, h2⟩ := push_many_acc f ps (xlnx_aes_push_data s p f false).1
    ([] ++ (xlnx_aes_push_data s p f false).2.1) (xlnx_aes_push_data s p f false).2.2
  constructor
  · rw [h1]; rfl
  · rw [h2]; simp [xlnx_aes_push_many]

/-- Claim C3: splitting an input byte stream into arbitrary chunk sequences
(every chunk but the last pushed without the last_word marker, the final
chunk with it) and pushing them in order produces exactly the same final
machine state - in particular the same final tag registers - and the same
concatenated output bytes as pushing the entire stream in a single call. -/
theorem C3_chunking (s : XlnxAES) (parts : List (List Nat)) (fin1 : List Nat) (f : Bool) :
    ((xlnx_aes_push_data (xlnx_aes_push_many s parts f).1 fin1 f true).1,
     (xlnx_aes_push_many s parts f).2.1
       ++ (xlnx_aes_push_data (xlnx_aes_push_many s parts f).1 fin1 f true).2.1)
      = ((xlnx_aes_push_data s (parts.flatten ++ fin1) f true).1,
         (xlnx_aes_push_data s (parts.flatten ++ fin1) f true).2.1) := by
  induction parts generalizing s with
  | nil => simp [xlnx_aes_push_many]
  | cons p ps ih =>
      obtain ⟨h1, h2⟩ := push_many_cons f s p ps
      rw [h1, h2]
      have hih := ih (xlnx_aes_push_data s p f false).1
      have hih1 := congrArg Prod.fst hih
      have hih2 := congrArg Prod.snd hih
      simp only [Prod.fst, Prod.snd] at hih1 hih2
      have hpa := push2_append s p (ps.flatten ++ fin1) f true
      have hpa1 := congrArg Prod.fst hpa
      have hpa2 := congrArg Prod.snd hpa
      simp only [Prod.fst, Prod.snd] at hpa1 hpa2
      rw [hih1, hpa1, List.append_assoc, hih2, hpa2]
      simp [List.append_assoc]

/-- Claim C2 (amended): the final tag returned by finish equals the GHASH
accumulator value after appending the 128-bit length block (64-bit AAD
bit-length concatenated with 64-bit ciphertext bit-length, big-endian)
XORed with the block-cipher encryption of the initial counter block built
by begin - the block whose 32-bit counter field is 1, per the GCM standard
- and begin builds that block from the 96-bit nonce with the counter field
initialized to 1. -/
theorem C2_tag_formula (c : gcm_context) (sched : List Nat) (nr nonce : Nat) :
    gcm_finish c
      = ghashUpd c.h c.acc
          (c.aadLen * 8 % 2 ^ 64 * 2 ^ 64 + c.ctLen * 8 % 2 ^ 64)
        ^^^ encBlockNat c.sched c.nr c.j0 ∧
    (gcm_begin sched nr nonce).j0 = nonce % 2 ^ 96 * 2 ^ 32 + 1 ∧
    (gcm_begin sched nr nonce).ctr = (gcm_begin sched nr nonce).j0 ∧
    (gcm_begin sched nr nonce).h = encBlockNat sched nr 0 :=
  ⟨rfl, rfl, rfl, rfl⟩

set_option maxRecDepth 1000000

/-- Claim C2 counterexample: with the zero 128-bit key and zero nonce, the
tag computed by finish differs from the value the claim words would give -
the hash value XORed with the encryption of the counter block whose
counter field is 0 - so the claim as stated is false: the engine encrypts
the initial counter block built by begin, whose counter field is 1. -/
theorem C2_counterexample :
    gcm_finish_counter0 (gcm_begin (keyExpand [0, 0, 0, 0] 4 10) 10 0)
      ≠ gcm_finish (gcm_begin (keyExpand [0, 0, 0, 0] 4 10) 10 0) := by
  decide

/-- Claim C4: if no key has been loaded, any push into an active message
(any phase other than IDLE) fails with KeyNotLoaded and mutates no state -
the same machine is returned, so in particular the phase cursor is
unchanged - and after a subsequent successful load_key and start_message
the engine accepts data again (the IV push succeeds and reaches AAD). -/
theorem C4_key_not_loaded (s : XlnxAES) (data : List Nat) (f lw : Bool)
    (hactive : s.state ≠ .IDLE) (hun : s.key_loaded = false) :
    xlnx_aes_push_data s data f lw = (s, [], some .KeyNotLoaded) ∧
    (xlnx_aes_push_data (xlnx_aes_start_message (xlnx_aes_load_key s 128).1 true)
        (wordsToBytesBE [0, 0, 0, 0]) false false).2.2 = none ∧
    (xlnx_aes_push_data (xlnx_aes_start_message (xlnx_aes_load_key s 128).1 true)
        (wordsToBytesBE [0, 0, 0, 0]) false false).1.state = .AAD := by
  refine ⟨?_, ?_, ?_⟩
  · simp [xlnx_aes_push_data, hactive, hun]
  · simp [xlnx_aes_push_data, xlnx_aes_start_message, xlnx_aes_load_key]
  · simp [xlnx_aes_push_data, xlnx_aes_start_message, xlnx_aes_load_key,
      wordsToBytesBE, natToBytesBE, aesRunBytes, aesStepByte, List.range,
      List.range.loop, bytesToNatBE]

/-- Claim C5: in a decrypt run the tag phase completion never aborts - the
machine asserts done and returns to IDLE for any expected tag; when the
stored expected tag differs from the internally computed one, tag_ok is
latched false; and the emitted plaintext does not depend on the expected
tag pushed, so already-produced plaintext is never retracted. -/
theorem C5_tag_mismatch (key : List Nat) (bits w0 w1 w2 w3 : Nat)
    (aad ct : List Nat) (t0 t1 t2 t3 u0 u1 u2 u3 : Nat)
    (hb : bits = 128 ∨ bits = 192 ∨ bits = 256) :
    (xlnxDecryptRun key bits w0 w1 w2 w3 aad ct [t0, t1, t2, t3]).1.done = true ∧
    (xlnxDecryptRun key bits w0 w1 w2 w3 aad ct [t0, t1, t2, t3]).1.state = .IDLE ∧
    ((xlnxDecryptRun key bits w0 w1 w2 w3 aad ct [t0, t1, t2, t3]).1.tag
        ≠ tagWords (gcm_finish
            (xlnxDecryptRun key bits w0 w1 w2 w3 aad ct [t0, t1, t2, t3]).1.gcm_ctx) →
      (xlnxDecryptRun key bits w0 w1 w2 w3 aad ct [t0, t1, t2, t3]).1.tag_ok = false) ∧
    (xlnxDecryptRun key bits w0 w1 w2 w3 aad ct [t0, t1, t2, t3]).2
      = (xlnxDecryptRun key bits w0 w1 w2 w3 aad ct [u0, u1, u2, u3]).2 := by
  rw [decryptRun_shape key bits w0 w1 w2 w3 aad ct t0 t1 t2 t3 hb,
      decryptRun_shape key bits w0 w1 w2 w3 aad ct u0 u1 u2 u3 hb]
  refine ⟨rfl, rfl, ?_, rfl⟩
  intro hmis
  simp only at hmis ⊢
  exact decide_eq_false (fun h => hmis h.symm)

/-- Claim C6: the phase cursor only moves along the fixed enum order: every
byte step leaves the phase unchanged or advances it to the immediate
successor, with the sole wrap TAG3 to IDLE at message completion (so no
phase is skipped or revisited within one message); the encrypt-side tag
emission micro-steps advance one phase at a time with the same wrap; an IV
phase advances exactly when its 32-bit word is completed (three buffered
bytes plus the incoming one); and completing IV3 installs the GCM context
built by begin from the assembled nonce. -/
theorem C6_phase_order (s : XlnxAES) (f : Bool) (b : Nat) :
    ((aesStepByte s f b).1.state = s.state ∨
     phaseIdx (aesStepByte s f b).1.state = phaseIdx s.state + 1 ∨
     (s.state = .TAG3 ∧ (aesStepByte s f b).1.state = .IDLE)) ∧
    ((aesEmitTagStep s).state = s.state ∨
     phaseIdx (aesEmitTagStep s).state = phaseIdx s.state + 1 ∨
     (s.state = .TAG3 ∧ (aesEmitTagStep s).state = .IDLE)) ∧
    ((s.state = .IV0 ∨ s.state = .IV1 ∨ s.state = .IV2 ∨ s.state = .IV3) →
      ((aesStepByte s f b).1.state ≠ s.state ↔ s.wbuf.length = 3)) ∧
    (s.state = .IV3 → s.wbuf.length = 3 →
      (aesStepByte s f b).1.state = .AAD ∧
      (aesStepByte s f b).1.gcm_ctx
        = gcm_begin s.sched (nrOf s.keylen)
            (nonceOfIv (s.iv.set 3 (bytesToNatBE (s.wbuf ++ [b % 256]))))) ∧
    (s.state = .PAYLOAD → s.encrypt = false → (aesEndPayload s).1.state = .TAG0) := by
  have hlen : ∀ l : List Nat, ∀ x : Nat, (l ++ [x]).length = 4 ↔ l.length = 3 := by
    intro l x
    simp
  refine ⟨?_, ?_, ?_, ?_, ?_⟩
  · cases h : s.state <;>
      simp [aesStepByte, h, phaseIdx, aesPayloadByte] <;>
      split <;>
      simp [phaseIdx]
  · cases h : s.state <;> simp [aesEmitTagStep, h, phaseIdx]
  · intro hiv
    rcases hiv with h | h | h | h <;>
      by_cases hw : s.wbuf.length = 3 <;>
      simp [aesStepByte, h, hlen, hw]
  · intro h hw
    simp [aesStepByte, h, hlen, hw]
  · intro h he
    simp [aesEndPayload, h, he]

/-- Claim C7: load_key with bits in {128, 192, 256} succeeds, marks the key
loaded, records the active length and derives the round-key schedule from
exactly the leading bits/32 key words - two key stores agreeing on those
leading words get the same schedule; for any other bits value it fails
with InvalidKeyLength and leaves the key store unloaded, with the key
registers and schedule untouched. -/
theorem C7_load_key (s t : XlnxAES) (bits : Nat) :
    (bits = 128 ∨ bits = 192 ∨ bits = 256 →
       (xlnx_aes_load_key s bits).2 = none ∧
       (xlnx_aes_load_key s bits).1.key_loaded = true ∧
       (xlnx_aes_load_key s bits).1.keylen = bits ∧
       (xlnx_aes_load_key s bits).1.sched
         = keyExpand (s.key.take (bits / 32)) (bits / 32) (nrOf bits) ∧
       (t.key.take (bits / 32) = s.key.take (bits / 32) →
          (xlnx_aes_load_key t bits).1.sched = (xlnx_aes_load_key s bits).1.sched)) ∧
    (¬ (bits = 128 ∨ bits = 192 ∨ bits = 256) →
       (xlnx_aes_load_key s bits).2 = some .InvalidKeyLength ∧
       (xlnx_aes_load_key s bits).1.key_loaded = false ∧
       (xlnx_aes_load_key s bits).1.key = s.key ∧
       (xlnx_aes_load_key s bits).1.sched = s.sched) := by
  constructor
  · intro h
    refine ⟨?_, ?_, ?_, ?_, ?_⟩ <;> simp [xlnx_aes_load_key, h]
    intro ht
    rw [ht]
  · intro h
    refine ⟨?_, ?_, ?_, ?_⟩ <;> simp [xlnx_aes_load_key, h]

/-- Claim C8: after zero_key all 8 key registers read back zero, the derived
round-key schedule is all zero, key_zeroed is set and the loaded flag is
cleared; a subsequent write_key stores the written value in the addressed
register and clears key_zeroed. -/
theorem C8_zero_key (s : XlnxAES) (i v : Nat) (hi : i < 8) (hv : v < 2 ^ 32) :
    (xlnx_aes_key_zero s).key.getD i 0 = 0 ∧
    (xlnx_aes_key_zero s).sched = List.replicate 60 0 ∧
    (xlnx_aes_key_zero s).key_zeroed = true ∧
    (xlnx_aes_key_zero s).key_loaded = false ∧
    (xlnx_aes_write_key (xlnx_aes_key_zero s) i v).key.getD i 0 = v ∧
    (xlnx_aes_write_key (xlnx_aes_key_zero s) i v).key_zeroed = false := by
  refine ⟨?_, rfl, rfl, rfl, ?_, rfl⟩
  · simp [xlnx_aes_key_zero]
    interval_cases i <;> rfl
  · simp [xlnx_aes_write_key, xlnx_aes_key_zero]
    have hv2 : v % 4294967296 = v := by omega
    rw [hv2]
    interval_cases i <;> rfl

theorem testBit_u32Max (i : Nat) : u32Max.testBit i = decide (i < 32) :=
  Nat.testBit_two_pow_sub_one 32 i

theorem testBit_mask32 (v i : Nat) :
    (mask32 v).testBit i = (decide (i < 32) && v.testBit i) :=
  Nat.testBit_mod_two_pow v 32 i

/-- Claim C9: after an interrupt-status write, an interrupt enable, an
interrupt disable and a device reset, the alarm/status interrupt line is
asserted iff RTC_INT_STATUS AND NOT RTC_INT_MASK is nonzero; writing v to
RTC_INT_EN clears the bits of v in RTC_INT_MASK and writing v to
RTC_INT_DIS sets them (stated per bit below 32). -/
theorem C9_rtc_irq_invariant (s : XlnxZynqMPRTC) (v i : Nat) (hi : i < 32) :
    rtcIrqInv (rtc_write_int_status s v) ∧
    rtcIrqInv (rtc_write_int_en s v) ∧
    rtcIrqInv (rtc_write_int_dis s v) ∧
    rtcIrqInv (rtc_reset s) ∧
    (rtc_write_int_en s v).rtc_int_mask.testBit i
      = (s.rtc_int_mask.testBit i && !(v.testBit i)) ∧
    (rtc_write_int_dis s v).rtc_int_mask.testBit i
      = (s.rtc_int_mask.testBit i || v.testBit i) := by
  refine ⟨rfl, rfl, rfl, rfl, ?_, ?_⟩
  · simp [rtc_write_int_en, rtc_int_update_irq,
      Nat.testBit_and, Nat.testBit_xor, testBit_u32Max, testBit_mask32, hi]
  · simp [rtc_write_int_dis, rtc_int_update_irq,
      Nat.testBit_or, testBit_mask32, hi]

/-- Claim C10 counterexample: writing 5 to CALIB_WRITE makes CALIB_READ read
back 5, but a direct bus write to CALIB_READ with bits above the low 21
set changes the stored value even though no CALIB_WRITE write intervened,
so a subsequent read no longer returns 5: the read-only mask 0x1fffff only
protects the low 21 bits. -/
theorem C10_counterexample :
    rtc_read_calib_read
      (rtc_write_calib_read (rtc_write_calib_write rtcInit 5) 0xffe00000) ≠ 5 := by
  decide

/-- Claim C10 (amended): writing a 32-bit value v to CALIB_WRITE causes
every subsequent read of CALIB_READ to return exactly v until the next
operation that writes CALIB_WRITE, writes CALIB_READ directly, or resets
the device. -/
theorem C10_calib_amended (s : XlnxZynqMPRTC) (v : Nat) (ops : List RtcOp)
    (hv : v < 2 ^ 32) (hops : ∀ op ∈ ops, rtcOpPreservesCalib op = true) :
    rtc_read_calib_read (rtcApplyOps (rtc_write_calib_write s v) ops) = v := by
  have key : ∀ (t : XlnxZynqMPRTC) (op : RtcOp), rtcOpPreservesCalib op = true →
      (rtcApply t op).calib_read = t.calib_read := by
    intro t op h
    cases op <;>
      simp [rtcApply, rtcOpPreservesCalib, rtc_write_int_status,
        rtc_write_int_en, rtc_write_int_dis, rtc_write_alarm,
        rtc_write_addr_error, rtc_int_update_irq,
        addr_error_int_update_irq] at h ⊢
  have main : ∀ (l : List RtcOp) (t : XlnxZynqMPRTC),
      (∀ op ∈ l, rtcOpPreservesCalib op = true) →
      (rtcApplyOps t l).calib_read = t.calib_read := by
    intro l
    induction l with
    | nil => intro t _; rfl
    | cons op rest ih =>
        intro t h
        have h1 := h op (List.mem_cons_self op rest)
        have h2 : ∀ o ∈ rest, rtcOpPreservesCalib o = true :=
          fun o ho => h o (List.mem_cons_of_mem op ho)
        calc (rtcApplyOps t (op :: rest)).calib_read
            = (rtcApplyOps (rtcApply t op) rest).calib_read := rfl
          _ = (rtcApply t op).calib_read := ih (rtcApply t op) h2
          _ = t.calib_read := key t op h1
  rw [rtc_read_calib_read, main ops _ hops]
  simp [rtc_write_calib_write, mask32]
  omega

/-- Witness for claim C1 at key length 128 with zero key words, zero IV,
empty AAD and empty plaintext. -/
theorem C1_roundtrip_witness :
    ((128 = 128 ∨ 128 = 192 ∨ 128 = 256) ∧ (∀ b ∈ ([] : List Nat), b < 256)) ∧
    ((xlnxDecryptRun [] 128 0 0 0 0 []
        (xlnxEncryptRun [] 128 0 0 0 0 [] []).2
        (xlnxEncryptRun [] 128 0 0 0 0 [] []).1.tag).2 = [] ∧
     (xlnxDecryptRun [] 128 0 0 0 0 []
        (xlnxEncryptRun [] 128 0 0 0 0 [] []).2
        (xlnxEncryptRun [] 128 0 0 0 0 [] []).1.tag).1.tag_ok = true ∧
     (xlnxDecryptRun [] 128 0 0 0 0 []
        (xlnxEncryptRun [] 128 0 0 0 0 [] []).2
        (xlnxEncryptRun [] 128 0 0 0 0 [] []).1.tag).1.done = true ∧
     (xlnxDecryptRun [] 128 0 0 0 0 []
        (xlnxEncryptRun [] 128 0 0 0 0 [] []).2
        (xlnxEncryptRun [] 128 0 0 0 0 [] []).1.tag).1.state = .IDLE) :=
  ⟨⟨by decide, by simp⟩,
   C1_roundtrip [] 128 0 0 0 0 [] [] (by decide) (by simp)⟩

/-- Witness for claim C3 at a concrete machine, fragmentation and final
chunk. -/
theorem C3_chunking_witness :
    ((xlnx_aes_push_data (xlnx_aes_push_many aesDemoIV3 [[1], [2]] false).1 [3] false true).1,
     (xlnx_aes_push_many aesDemoIV3 [[1], [2]] false).2.1
       ++ (xlnx_aes_push_data (xlnx_aes_push_many aesDemoIV3 [[1], [2]] false).1 [3] false true).2.1)
      = ((xlnx_aes_push_data aesDemoIV3 ([[1], [2]].flatten ++ [3]) false true).1,
         (xlnx_aes_push_data aesDemoIV3 ([[1], [2]].flatten ++ [3]) false true).2.1) :=
  C3_chunking aesDemoIV3 [[1], [2]] [3] false

/-- Witness for claim C4 at a freshly started message with no key loaded. -/
theorem C4_key_not_loaded_witness :
    ((xlnx_aes_start_message xlnx_aes_reset true).state ≠ .IDLE ∧
     (xlnx_aes_start_message xlnx_aes_reset true).key_loaded = false) ∧
    (xlnx_aes_push_data (xlnx_aes_start_message xlnx_aes_reset true) [1, 2, 3] false false
       = (xlnx_aes_start_message xlnx_aes_reset true, [], some .KeyNotLoaded) ∧
     (xlnx_aes_push_data (xlnx_aes_start_message
          (xlnx_aes_load_key (xlnx_aes_start_message xlnx_aes_reset true) 128).1 true)
        (wordsToBytesBE [0, 0, 0, 0]) false false).2.2 = none ∧
     (xlnx_aes_push_data (xlnx_aes_start_message
          (xlnx_aes_load_key (xlnx_aes_start_message xlnx_aes_reset true) 128).1 true)
        (wordsToBytesBE [0, 0, 0, 0]) false false).1.state = .AAD) :=
  ⟨⟨by decide, by decide⟩,
   C4_key_not_loaded (xlnx_aes_start_message xlnx_aes_reset true) [1, 2, 3]
     false false (by decide) (by decide)⟩

/-- Witness for claim C5 at key length 128 with empty AAD and ciphertext
and two different expected tags. -/
theorem C5_tag_mismatch_witness :
    (128 = 128 ∨ 128 = 192 ∨ 128 = 256) ∧
    ((xlnxDecryptRun [] 128 0 0 0 0 [] [] [0, 0, 0, 0]).1.done = true ∧
     (xlnxDecryptRun [] 128 0 0 0 0 [] [] [0, 0, 0, 0]).1.state = .IDLE ∧
     ((xlnxDecryptRun [] 128 0 0 0 0 [] [] [0, 0, 0, 0]).1.tag
         ≠ tagWords (gcm_finish
             (xlnxDecryptRun [] 128 0 0 0 0 [] [] [0, 0, 0, 0]).1.gcm_ctx) →
       (xlnxDecryptRun [] 128 0 0 0 0 [] [] [0, 0, 0, 0]).1.tag_ok = false) ∧
     (xlnxDecryptRun [] 128 0 0 0 0 [] [] [0, 0, 0, 0]).2
       = (xlnxDecryptRun [] 128 0 0 0 0 [] [] [1, 0, 0, 0]).2) :=
  ⟨by decide,
   C5_tag_mismatch [] 128 0 0 0 0 [] [] 0 0 0 0 1 0 0 0 (by decide)⟩

/-- Witness for claim C6: completing IV3 at the demo machine moves the
phase to AAD and installs the context built by gcm begin. -/
theorem C6_phase_order_witness :
    (aesStepByte aesDemoIV3 false 0).1.state = .AAD ∧
    (aesStepByte aesDemoIV3 false 0).1.gcm_ctx
      = gcm_begin aesDemoIV3.sched (nrOf aesDemoIV3.keylen)
          (nonceOfIv (aesDemoIV3.iv.set 3
            (bytesToNatBE (aesDemoIV3.wbuf ++ [0 % 256])))) :=
  (C6_phase_order aesDemoIV3 false 0).2.2.2.1 rfl rfl

/-- Witness for claim C7: loading 128 bits succeeds and loading 77 bits
fails with InvalidKeyLength. -/
theorem C7_load_key_witness :
    (xlnx_aes_load_key xlnx_aes_reset 128).2 = none ∧
    (xlnx_aes_load_key xlnx_aes_reset 77).2 = some .InvalidKeyLength :=
  ⟨((C7_load_key xlnx_aes_reset xlnx_aes_reset 128).1 (by decide)).1,
   ((C7_load_key xlnx_aes_reset xlnx_aes_reset 77).2 (by decide)).1⟩

/-- Witness for claim C8 at register 2 and value 5. -/
theorem C8_zero_key_witness :
    (2 < 8 ∧ 5 < 2 ^ 32) ∧
    ((xlnx_aes_key_zero xlnx_aes_reset).key.getD 2 0 = 0 ∧
     (xlnx_aes_key_zero xlnx_aes_reset).sched = List.replicate 60 0 ∧
     (xlnx_aes_key_zero xlnx_aes_reset).key_zeroed = true ∧
     (xlnx_aes_key_zero xlnx_aes_reset).key_loaded = false ∧
     (xlnx_aes_write_key (xlnx_aes_key_zero xlnx_aes_reset) 2 5).key.getD 2 0 = 5 ∧
     (xlnx_aes_write_key (xlnx_aes_key_zero xlnx_aes_reset) 2 5).key_zeroed = false) :=
  ⟨⟨by decide, by decide⟩, C8_zero_key xlnx_aes_reset 2 5 (by decide) (by decide)⟩

/-- Witness for claim C9 at the reset state, value 5 and bit 0. -/
theorem C9_rtc_irq_invariant_witness :
    (0 < 32) ∧
    (rtcIrqInv (rtc_write_int_status rtcInit 5) ∧
     rtcIrqInv (rtc_write_int_en rtcInit 5) ∧
     rtcIrqInv (rtc_write_int_dis rtcInit 5) ∧
     rtcIrqInv (rtc_reset rtcInit) ∧
     (rtc_write_int_en rtcInit 5).rtc_int_mask.testBit 0
       = (rtcInit.rtc_int_mask.testBit 0 && !(Nat.testBit 5 0)) ∧
     (rtc_write_int_dis rtcInit 5).rtc_int_mask.testBit 0
       = (rtcInit.rtc_int_mask.testBit 0 || Nat.testBit 5 0)) :=
  ⟨by decide, C9_rtc_irq_invariant rtcInit 5 0 (by decide)⟩

/-- Witness for claim C10 (amended): a calibration write of 5 survives an
interrupt-disable write and reads back as 5. -/
theorem C10_calib_amended_witness :
    (5 < 2 ^ 32 ∧ ∀ op ∈ [RtcOp.wIntDis 1], rtcOpPreservesCalib op = true) ∧
    rtc_read_calib_read
      (rtcApplyOps (rtc_write_calib_write rtcInit 5) [RtcOp.wIntDis 1]) = 5 :=
  ⟨⟨by decide, by decide⟩,
   C10_calib_amended rtcInit 5 [RtcOp.wIntDis 1] (by decide) (by decide)⟩

end XlnxSpec
